import Mathlib

/-!
Shallow embedding of the pepper-ai-tutor system: the robot listener command
dispatcher (robot_listener_py27/robot_listener.py), the speech-recognition
capture loop (main_brain_py3/services/robot_controller.py and the real-robot
variant of the listener), the command-channel proxy
(main_brain_py3/services/robot_proxy.py), and the session controller login
and puzzle loops (main_brain_py3/main_controller.py).
-/

/-- Python str of an optional value: str of a missing key (None) is the text None. -/
def pyStr : Option String → String
  | some s => s
  | none => "None"

/-- A single apostrophe character, used to build the dispatcher error messages. -/
def squote : String := String.mk [Char.ofNat 39]

/-- The data mapping of a Command, with the keys the dispatcher reads. -/
structure CommandData where
  text : Option String := none
  name : Option String := none
  url : Option String := none
  vocabulary : Option (List String) := none
  timeout : Option ℚ := none
deriving Repr, DecidableEq

/-- A Command envelope as received by the listener: action name and data mapping. -/
structure Command where
  action : Option String := none
  data : CommandData := {}
deriving Repr, DecidableEq

/-- A Response envelope as produced by the listener dispatcher or the proxy. -/
structure Response where
  status : String
  action : Option String := none
  message : Option String := none
  result : Option String := none
deriving Repr, DecidableEq

/-- The actuation capabilities the listener process owns. Each call either
returns a value or raises an exception carrying a description string, matching
the try/except discipline of RobotController.execute_command. raw_input models
the keyboard read of the simulation-mode listen branch. -/
structure Capabilities where
  say : String → Except String Unit
  isBehaviorInstalled : Option String → Except String Bool
  runBehavior : Option String → Except String Unit
  showImage : String → Except String Unit
  motionRest : Except String Unit
  raw_input : Except String String

/-- Error response produced by the outer try/except of execute_command. -/
def errorResponse (action : Option String) (e : String) : Response :=
  { status := "error",
    message := some ("Error executing action " ++ squote ++ pyStr action ++ squote ++ ": " ++ e) }

/-- The listener dispatcher RobotController.execute_command from
robot_listener.py (the active, simulation configuration): reads the action
name and data, executes the corresponding capability calls, and catches every
exception a handler raises, turning it into an error Response. -/
def execute_command (caps : Capabilities) (command : Command) : Response :=
  let action := command.action
  let data := command.data
  if action = some "say" then
    match caps.say (pyStr data.text) with
    | .ok _ => { status := "ok", action := some "say" }
    | .error e => errorResponse action e
  else if action = some "ping" then
    { status := "ok", action := some "ping" }
  else if action = some "play_animation" then
    match caps.isBehaviorInstalled data.name with
    | .ok true =>
      match caps.runBehavior data.name with
      | .ok _ => { status := "ok", action := some "play_animation" }
      | .error e => errorResponse action e
    | .ok false =>
      { status := "error",
        message := some ("Behavior " ++ squote ++ pyStr data.name ++ squote ++ " not found.") }
    | .error e => errorResponse action e
  else if action = some "show_image" then
    match caps.showImage (pyStr data.url) with
    | .ok _ => { status := "ok", action := some "show_image" }
    | .error _ => { status := "ok", action := some "show_image" }
  else if action = some "rest" then
    match caps.motionRest with
    | .ok _ => { status := "ok", action := some "rest" }
    | .error e => errorResponse action e
  else if action = some "listen" then
    match caps.raw_input with
    | .ok user_typed => { status := "ok", action := some "listen", result := some user_typed }
    | .error e => errorResponse action e
  else
    { status := "error", message := some "Unknown action" }

/-- The serving loop of the listener main: each received Command is dispatched
and its Response sent back, then the loop waits for the next Command. -/
def serve_loop (caps : Capabilities) (commands : List Command) : List Response :=
  commands.map (execute_command caps)

/-- Outcome of one zmq round trip as seen by RobotProxy.send_command: a reply
arrived, the receive timed out (zmq.error.Again), or another exception. -/
inductive TransportOutcome where
  | reply (r : Response)
  | again
  | exc (e : String)

/-- The command-channel client RobotProxy send path: sends the Command and
waits for the reply; a receive timeout is turned into a synthetic error
Response, any other exception into an error Response carrying its text. -/
def send_command (outcome : TransportOutcome) (command : Command) : Response :=
  match outcome with
  | .reply r => r
  | .again => { status := "error", message := some "No response from listener" }
  | .exc e => { status := "error", message := some e }

/-- A recognition sample as stored in the shared WordRecognized memory slot:
the heard word and its confidence score. -/
structure RecognitionSample where
  word : String
  confidence : ℚ
deriving Repr, DecidableEq

/-- Acceptance test of the capture loop, mirroring the source condition
word_data and word_data[0] and word_data[1] > 0.4 on a present sample: a
non-empty word whose confidence strictly exceeds the 0.4 threshold. -/
def acceptSample (s : RecognitionSample) : Bool :=
  !s.word.isEmpty && decide ((0.4 : ℚ) < s.confidence)

/-- Content of the WordRecognized slot at successive polls, before any capture
loop clears it: the capability layer may write a new sample just before poll k
(env k = some sample); otherwise the slot keeps its previous content, starting
from slot0. -/
def slotAt (env : Nat → Option RecognitionSample) (slot0 : Option RecognitionSample) :
    Nat → Option RecognitionSample
  | 0 =>
    match env 0 with
    | some s => some s
    | none => slot0
  | k + 1 =>
    match env (k + 1) with
    | some s => some s
    | none => slotAt env slot0 k

/-- The polling loop of RobotController.listen (services/robot_controller.py;
the same loop is the real-robot listen branch of the py27 listener): while
ticks of the deadline remain, read the slot (as refreshed by the capability
layer), return the first sample passing acceptSample and clear the slot;
on deadline expiry return the empty string and leave the slot as it is. -/
def capture_loop :
    (Nat → Option RecognitionSample) → Option RecognitionSample → Nat →
      String × Option RecognitionSample
  | _, slot, 0 => ("", slot)
  | env, slot, t + 1 =>
    let slot' :=
      match env 0 with
      | some s => some s
      | none => slot
    match slot' with
    | some s =>
      if acceptSample s then (s.word, none)
      else capture_loop (fun k => env (k + 1)) slot' t
    | none => capture_loop (fun k => env (k + 1)) slot' t

theorem acceptSample_iff (s : RecognitionSample) :
    acceptSample s = true ↔ s.word ≠ "" ∧ (0.4 : ℚ) < s.confidence := by
  have h : s.word.isEmpty = false ↔ s.word ≠ "" := by
    rw [← Bool.not_eq_true]
    exact not_congr (String.isEmpty_iff s.word)
  simp [acceptSample, Bool.and_eq_true, Bool.not_eq_true', h]

theorem slotAt_succ (env : Nat → Option RecognitionSample)
    (slot0 : Option RecognitionSample) (j : Nat) :
    slotAt env slot0 (j + 1) = slotAt (fun k => env (k + 1)) (slotAt env slot0 0) j := by
  induction j with
  | zero => rfl
  | succ j ih =>
    have hL : slotAt env slot0 (j + 1 + 1) =
        match env (j + 1 + 1) with
        | some s => some s
        | none => slotAt env slot0 (j + 1) := rfl
    have hR : slotAt (fun k => env (k + 1)) (slotAt env slot0 0) (j + 1) =
        match env (j + 1 + 1) with
        | some s => some s
        | none => slotAt (fun k => env (k + 1)) (slotAt env slot0 0) j := rfl
    rw [hL, hR, ih]

theorem capture_loop_empty_iff (ticks : Nat) :
    ∀ (env : Nat → Option RecognitionSample) (slot : Option RecognitionSample),
      (capture_loop env slot ticks).1 = "" ↔
        ∀ j < ticks, ∀ s, slotAt env slot j = some s → acceptSample s = false := by
  induction ticks with
  | zero =>
    intro env slot
    simp [capture_loop]
  | succ t ih =>
    intro env slot
    have hz : (match env 0 with | some s => some s | none => slot) = slotAt env slot 0 := by
      simp [slotAt]
    rcases h0 : slotAt env slot 0 with _ | s
    · have hloop : capture_loop env slot (t + 1) =
          capture_loop (fun k => env (k + 1)) none t := by
        simp only [capture_loop, hz, h0]
      rw [hloop]
      rw [ih]
      constructor
      · intro h j hj s hs
        rcases j with _ | j
        · rw [h0] at hs; exact absurd hs (by simp)
        · rw [slotAt_succ, h0] at hs
          exact h j (Nat.lt_of_succ_lt_succ hj) s hs
      · intro h j hj s hs
        refine h (j + 1) (Nat.succ_lt_succ hj) s ?_
        rw [slotAt_succ, h0]
        exact hs
    · by_cases hacc : acceptSample s
      · have hloop : capture_loop env slot (t + 1) = (s.word, none) := by
          simp only [capture_loop, hz, h0]
          rw [if_pos hacc]
        rw [hloop]
        have hw : s.word ≠ "" := ((acceptSample_iff s).mp hacc).1
        constructor
        · intro h; exact absurd h hw
        · intro h
          have := h 0 (Nat.succ_pos t) s h0
          rw [hacc] at this
          exact absurd this (by simp)
      · have hloop : capture_loop env slot (t + 1) =
            capture_loop (fun k => env (k + 1)) (some s) t := by
          simp only [capture_loop, hz, h0]
          rw [if_neg hacc]
        rw [hloop]
        rw [ih]
        constructor
        · intro h j hj u hs
          rcases j with _ | j
          · rw [h0] at hs
            cases hs
            exact Bool.eq_false_iff.mpr hacc
          · rw [slotAt_succ, h0] at hs
            exact h j (Nat.lt_of_succ_lt_succ hj) u hs
        · intro h j hj u hs
          refine h (j + 1) (Nat.succ_lt_succ hj) u ?_
          rw [slotAt_succ, h0]
          exact hs

theorem capture_loop_result_accepted (ticks : Nat) :
    ∀ (env : Nat → Option RecognitionSample) (slot : Option RecognitionSample),
      (capture_loop env slot ticks).1 ≠ "" →
        ∃ j < ticks, ∃ s, slotAt env slot j = some s ∧ acceptSample s = true ∧
          s.word = (capture_loop env slot ticks).1 := by
  induction ticks with
  | zero =>
    intro env slot h
    exact absurd rfl h
  | succ t ih =>
    intro env slot h
    have hz : (match env 0 with | some s => some s | none => slot) = slotAt env slot 0 := by
      simp [slotAt]
    rcases h0 : slotAt env slot 0 with _ | s
    · have hloop : capture_loop env slot (t + 1) =
          capture_loop (fun k => env (k + 1)) none t := by
        simp only [capture_loop, hz, h0]
      rw [hloop] at h ⊢
      obtain ⟨j, hj, u, hs, hu, hw⟩ := ih _ _ h
      exact ⟨j + 1, Nat.succ_lt_succ hj, u, by rw [slotAt_succ, h0]; exact hs, hu, hw⟩
    · by_cases hacc : acceptSample s
      · have hloop : capture_loop env slot (t + 1) = (s.word, none) := by
          simp only [capture_loop, hz, h0]
          rw [if_pos hacc]
        rw [hloop]
        exact ⟨0, Nat.succ_pos t, s, h0, hacc, rfl⟩
      · have hloop : capture_loop env slot (t + 1) =
            capture_loop (fun k => env (k + 1)) (some s) t := by
          simp only [capture_loop, hz, h0]
          rw [if_neg hacc]
        rw [hloop] at h ⊢
        obtain ⟨j, hj, u, hs, hu, hw⟩ := ih _ _ h
        exact ⟨j + 1, Nat.succ_lt_succ hj, u, by rw [slotAt_succ, h0]; exact hs, hu, hw⟩

theorem capture_loop_no_env_empty_slot (ticks : Nat) :
    capture_loop (fun _ => none) none ticks = ("", none) := by
  induction ticks with
  | zero => rfl
  | succ t ih => simpa [capture_loop] using ih

/-- C2: every Command given to execute_command yields a Response that is either
status ok or status error with a message present, for every behavior of the
capabilities, and the serving loop returns one Response per Command: no
handler failure or malformed data terminates it. -/
theorem execute_command_never_fails (caps : Capabilities) (cmd : Command)
    (cmds : List Command) :
    ((execute_command caps cmd).status = "ok" ∨
      ((execute_command caps cmd).status = "error" ∧
        (execute_command caps cmd).message.isSome)) ∧
    (serve_loop caps cmds).length = cmds.length := by
  refine ⟨?_, by simp [serve_loop]⟩
  unfold execute_command
  dsimp only
  split_ifs <;> (repeat' split) <;> simp [errorResponse]

/-- C8: a show_image Command whose data.url is present returns status ok even
when the display capability raises: the failure degrades to a no-op success. -/
theorem show_image_always_ok (caps : Capabilities) (data : CommandData) (u : String)
    (h : data.url = some u) :
    execute_command caps { action := some "show_image", data := data } =
      { status := "ok", action := some "show_image" } := by
  unfold execute_command
  dsimp only
  rcases caps.showImage (pyStr data.url) <;> simp

/-- Capability environment where the display raises and everything else works. -/
def capsNoDisplay : Capabilities where
  say := fun _ => .ok ()
  isBehaviorInstalled := fun _ => .ok true
  runBehavior := fun _ => .ok ()
  showImage := fun _ => .error "ALTabletService unavailable"
  motionRest := .ok ()
  raw_input := .ok ""

/-- Witness for C8 at a concrete command with a url and a raising display. -/
theorem show_image_always_ok_witness :
    ({ url := some "img/p1.png" : CommandData }).url = some "img/p1.png" ∧
    execute_command capsNoDisplay
        { action := some "show_image", data := { url := some "img/p1.png" } } =
      { status := "ok", action := some "show_image" } :=
  ⟨rfl, show_image_always_ok capsNoDisplay { url := some "img/p1.png" } "img/p1.png" rfl⟩

/-- C3 counterexample: on a receive timeout the synthetic message is the text
No response from listener with a capital N, not the lower-case text the claim
states. -/
theorem send_command_timeout_message_counterexample :
    (send_command .again { action := some "ping" }).message =
        some "No response from listener" ∧
    (send_command .again { action := some "ping" }).message ≠
        some "no response from listener" := by
  constructor
  · rfl
  · decide

/-- C3 amended: for every Command, a receive timeout makes send_command return
the synthetic Response with status error and message No response from
listener, as data, not by raising. -/
theorem send_command_timeout_synthetic (command : Command) :
    send_command .again command =
      { status := "error", message := some "No response from listener" } := rfl

theorem acceptSample_eq_false_iff (s : RecognitionSample) :
    acceptSample s = false ↔ s.word = "" ∨ s.confidence ≤ (0.4 : ℚ) := by
  rw [← Bool.not_eq_true, acceptSample_iff]
  push_neg
  constructor
  · intro h
    by_cases hw : s.word = ""
    · exact Or.inl hw
    · exact Or.inr (h hw)
  · rintro (hw | hc)
    · intro h
      exact absurd hw h
    · intro _
      exact hc

theorem slotAt_none (j : Nat) : slotAt (fun _ => none) none j = none := by
  induction j with
  | zero => rfl
  | succ j ih => simpa [slotAt] using ih

/-- C1 counterexample: a pre-seeded sample with an empty word and confidence
0.5 sits in the slot at poll 0, strictly above the 0.4 threshold, yet the
loop rejects it (the source condition also requires the word itself to be
truthy) and the result is empty, so result emptiness is not equivalent to the
absence of a sample above confidence 0.4. -/
theorem listen_threshold_counterexample :
    slotAt (fun _ => none) (some { word := "", confidence := 1 / 2 }) 0 =
        some { word := "", confidence := 1 / 2 } ∧
    (0.4 : ℚ) < 1 / 2 ∧
    (capture_loop (fun _ => none) (some { word := "", confidence := 1 / 2 }) 1).1 = "" := by
  refine ⟨rfl, by norm_num, ?_⟩
  rfl

/-- C1 amended: the capture loop returns the empty string exactly when no
sample with a non-empty word and confidence strictly above 0.4 is present at
a poll before the deadline, and a non-empty result is the word of such an
accepted sample, so a sample at or below confidence 0.4 is never accepted. -/
theorem listen_threshold (env : Nat → Option RecognitionSample)
    (slot : Option RecognitionSample) (ticks : Nat) :
    ((capture_loop env slot ticks).1 = "" ↔
      ∀ j < ticks, ∀ s, slotAt env slot j = some s →
        s.word = "" ∨ s.confidence ≤ (0.4 : ℚ)) ∧
    ((capture_loop env slot ticks).1 ≠ "" →
      ∃ j < ticks, ∃ s, slotAt env slot j = some s ∧ s.word ≠ "" ∧
        (0.4 : ℚ) < s.confidence ∧ s.word = (capture_loop env slot ticks).1) := by
  constructor
  · rw [capture_loop_empty_iff]
    constructor
    · intro h j hj s hs
      exact (acceptSample_eq_false_iff s).mp (h j hj s hs)
    · intro h j hj s hs
      exact (acceptSample_eq_false_iff s).mpr (h j hj s hs)
  · intro h
    obtain ⟨j, hj, s, hs, hacc, hw⟩ := capture_loop_result_accepted ticks env slot h
    obtain ⟨hw0, hc⟩ := (acceptSample_iff s).mp hacc
    exact ⟨j, hj, s, hs, hw0, hc, hw⟩

/-- Capability write stream for the C1 witness: a sample cat at confidence
0.41 written at the first poll, nothing afterwards. -/
def envCat41 : Nat → Option RecognitionSample :=
  fun k => if k = 0 then some { word := "cat", confidence := 41 / 100 } else none

/-- Witness for C1 at a concrete environment: the 0.41-confidence sample is
accepted and returned. -/
theorem listen_threshold_witness :
    ∃ j < 3, ∃ s, slotAt envCat41 none j = some s ∧ s.word ≠ "" ∧
      (0.4 : ℚ) < s.confidence ∧ s.word = (capture_loop envCat41 none 3).1 := by
  have hacc : acceptSample { word := "cat", confidence := 41 / 100 } = true :=
    (acceptSample_iff _).mpr ⟨by decide, by norm_num⟩
  have e0 : envCat41 0 = some { word := "cat", confidence := 41 / 100 } := rfl
  have h1 : capture_loop envCat41 none 3 = ("cat", none) := by
    simp only [capture_loop, e0]
    rw [if_pos hacc]
  exact (listen_threshold envCat41 none 3).2 (by rw [h1]; decide)

/-- C7: consuming a sample clears the slot: with a single pre-seeded accepted
sample and no further capability writes, the first listen returns its word
and leaves the slot cleared, and a second sequential listen starting from the
resulting slot times out with the empty string. -/
theorem listen_consume_clears_slot (s : RecognitionSample) (t1 t2 : Nat)
    (hw : s.word ≠ "") (hc : (0.4 : ℚ) < s.confidence) (ht : 0 < t1) :
    (capture_loop (fun _ => none) (some s) t1).1 = s.word ∧
    (capture_loop (fun _ => none) (some s) t1).2 = none ∧
    (capture_loop (fun _ => none) (capture_loop (fun _ => none) (some s) t1).2 t2).1 = "" := by
  obtain ⟨t, rfl⟩ := Nat.exists_eq_succ_of_ne_zero (Nat.pos_iff_ne_zero.mp ht)
  have hacc : acceptSample s = true := (acceptSample_iff s).mpr ⟨hw, hc⟩
  have h1 : capture_loop (fun _ => none) (some s) (t + 1) = (s.word, none) := by
    simp only [capture_loop]
    rw [if_pos hacc]
  rw [h1]
  exact ⟨rfl, rfl, by rw [capture_loop_no_env_empty_slot]⟩

/-- Witness for C7 at a concrete sample and tick budgets. -/
theorem listen_consume_clears_slot_witness :
    (capture_loop (fun _ => none) (some { word := "cat", confidence := 9 / 10 }) 3).1 = "cat" ∧
    (capture_loop (fun _ => none) (some { word := "cat", confidence := 9 / 10 }) 3).2 = none ∧
    (capture_loop (fun _ => none)
        (capture_loop (fun _ => none) (some { word := "cat", confidence := 9 / 10 }) 3).2 5).1
      = "" :=
  listen_consume_clears_slot { word := "cat", confidence := 9 / 10 } 3 5
    (by decide) (by norm_num) (by norm_num)

/-- Capability environment of the simulation-mode listener in which the user
types cat at the keyboard prompt. -/
def capsTypesCat : Capabilities where
  say := fun _ => .ok ()
  isBehaviorInstalled := fun _ => .ok true
  runBehavior := fun _ => .ok ()
  showImage := fun _ => .ok ()
  motionRest := .ok ()
  raw_input := .ok "cat"

/-- C6 counterexample: the active listener serves the listen action by reading
typed keyboard input and returning it verbatim, ignoring the vocabulary: a
listen Command with an empty vocabulary returns the non-empty result cat. -/
theorem listen_empty_vocabulary_counterexample :
    (execute_command capsTypesCat
        { action := some "listen",
          data := { vocabulary := some [], timeout := some 10 } }).result = some "cat" ∧
    some "cat" ≠ some ("" : String) := by
  constructor
  · rfl
  · decide

/-- C6 amended: for the speech-recognition capture loop, if the recognition
capability only ever produces words of the supplied vocabulary (the
restriction that setVocabulary requests), then a listen with an empty
vocabulary returns the empty string whatever the user says; the active
simulation-mode listener instead returns the typed input verbatim. -/
theorem listen_empty_vocabulary (env : Nat → Option RecognitionSample)
    (slot : Option RecognitionSample) (ticks : Nat) (vocabulary : List String)
    (hvoc : vocabulary = [])
    (hcap : ∀ j s, slotAt env slot j = some s → s.word ∈ vocabulary) :
    (capture_loop env slot ticks).1 = "" := by
  rw [capture_loop_empty_iff]
  intro j hj s hs
  have hmem := hcap j s hs
  rw [hvoc] at hmem
  exact absurd hmem (List.not_mem_nil s.word)

/-- Witness for C6 amended at a concrete silent environment. -/
theorem listen_empty_vocabulary_witness :
    (capture_loop (fun _ => none) none 2).1 = "" :=
  listen_empty_vocabulary (fun _ => none) none 2 [] rfl
    (fun j s hs => by rw [slotAt_none j] at hs; cases hs)

/-- A user profile as stored in the users table profile_json. -/
structure Profile where
  name : String
  age : Nat
  persona : String
deriving Repr, DecidableEq

/-- A user row as returned by DatabaseManager.authenticate_user. -/
structure UserRec where
  id : Nat
  username : String
  profile : Profile
deriving Repr, DecidableEq

/-- A puzzle row as returned by DatabaseManager.get_puzzle. -/
structure Puzzle where
  question : String
  image_url : String
  solution_keywords : List String
deriving Repr, DecidableEq

/-- Environment of PuzzleTutorApp.login: the result of the single identity
listen, and the external credential store authenticate_user. -/
structure LoginEnv where
  listenResult : String
  authenticate_user : String → String → Option UserRec

/-- Observable outcome of PuzzleTutorApp.login: whether it returned True, the
listen calls it made (vocabulary and timeout of each), the (username, pin)
pairs submitted to the credential store, and the user loaded. -/
structure LoginOutcome where
  success : Bool
  listens : List (List String × ℚ)
  authAttempts : List (String × String)
  current_user : Option UserRec

/-- PuzzleTutorApp.login from main_controller.py: listen once for the
username against the fixed vocabulary with a ten second timeout; an empty
result fails the login at once; otherwise the pin to try is computed from the
username alone (1234 for Alex, 5678 otherwise), submitted to the credential
store, and the login succeeds exactly when the store returns a user. -/
def login (env : LoginEnv) : LoginOutcome :=
  let username := env.listenResult
  if username = "" then
    { success := false, listens := [(["Alex", "DrEvans"], 10)],
      authAttempts := [], current_user := none }
  else
    let pin_to_try := if username = "Alex" then "1234" else "5678"
    let user := env.authenticate_user username pin_to_try
    { success := user.isSome,
      listens := [(["Alex", "DrEvans"], 10)],
      authAttempts := [(username, pin_to_try)],
      current_user := user }

/-- The main entry point of the brain process: login is attempted once and
the puzzle session runs only if it returned True; a failed login ends the
run, with no further login attempt. -/
def main_runs_session (env : LoginEnv) : Bool :=
  (login env).success

/-- C4 counterexample: with an empty identity-capture result, login performs
exactly one listen and fails at once, and main does not run the session:
there is no second identity capture before the session fails. -/
theorem login_no_retry_counterexample :
    (login { listenResult := "", authenticate_user := fun _ _ => none }).success = false ∧
    (login { listenResult := "", authenticate_user := fun _ _ => none }).listens.length = 1 ∧
    main_runs_session { listenResult := "", authenticate_user := fun _ _ => none } = false :=
  ⟨rfl, rfl, rfl⟩

/-- C4 amended: whenever the identity-capture listen returns an empty result,
login fails immediately after that single capture: no retry happens, no
credential check is made, and the session does not run. -/
theorem login_empty_fails_immediately (env : LoginEnv) (h : env.listenResult = "") :
    (login env).success = false ∧ (login env).listens.length = 1 ∧
    (login env).authAttempts = [] ∧ main_runs_session env = false := by
  simp [login, main_runs_session, h]

/-- Witness for C4 amended at a concrete environment. -/
theorem login_empty_fails_immediately_witness :
    ({ listenResult := "", authenticate_user := fun _ _ => none : LoginEnv }).listenResult
      = "" ∧
    (login { listenResult := "", authenticate_user := fun _ _ => none }).success = false :=
  ⟨rfl,
    (login_empty_fails_immediately
      { listenResult := "", authenticate_user := fun _ _ => none } rfl).1⟩

/-- C10: the secret submitted at login is a function of the heard username
alone, 1234 for Alex and 5678 otherwise; the login succeeds exactly when the
credential store accepts that hardcoded pin for the username; and the only
listen performed offers the username vocabulary, so no secret is ever
captured from the user. -/
theorem login_hardcoded_pin (env : LoginEnv) (h : env.listenResult ≠ "") :
    (login env).authAttempts =
      [(env.listenResult, if env.listenResult = "Alex" then "1234" else "5678")] ∧
    ((login env).success = true ↔
      env.authenticate_user env.listenResult
        (if env.listenResult = "Alex" then "1234" else "5678") ≠ none) ∧
    (login env).listens = [(["Alex", "DrEvans"], 10)] := by
  refine ⟨by simp [login, h], ?_, by simp [login, h]⟩
  simp [login, h, Option.isSome_iff_ne_none]

/-- Credential-store environment for the C10 witness: Alex with pin 1234. -/
def envAlex : LoginEnv where
  listenResult := "Alex"
  authenticate_user := fun u p =>
    if u = "Alex" ∧ p = "1234" then
      some { id := 1, username := "Alex",
             profile := { name := "Alex", age := 8, persona := "curious" } }
    else none

/-- Witness for C10 at the concrete Alex environment. -/
theorem login_hardcoded_pin_witness :
    envAlex.listenResult ≠ "" ∧ (login envAlex).authAttempts = [("Alex", "1234")] := by
  constructor
  · decide
  · have h := (login_hardcoded_pin envAlex (by decide)).1
    simpa [envAlex] using h

/-- Outcome of one iteration of the run_puzzle while loop. -/
inductive StepOutcome where
  | reprompt
  | solved
  | skipped
  | hintGiven
deriving Repr, DecidableEq

/-- Environment of one run_puzzle iteration: the external hint generator, the
configured model name for hints, and the wall-clock readings taken right
before and right after the generator call. -/
structure StepEnv where
  generate_hint : Puzzle → String → Profile → String
  llm_for_hints : String
  t0 : ℚ
  t1 : ℚ

/-- Lower-casing as performed by the Python str lower call on the inputs this
system compares (basic latin letters). -/
def pyLower (s : String) : String := String.mk (s.data.map Char.toLower)

/-- Observable effects of one run_puzzle iteration. -/
structure StepResult where
  outcome : StepOutcome
  spoken : List String
  animations : List String
  hintCalls : List (Puzzle × String × Profile)
  analytics : List (Nat × String × ℚ)

/-- One iteration of the while loop of PuzzleTutorApp.run_puzzle
(main_controller.py): an empty input reprompts and stays in the loop; an
input whose lower-casing is a solution keyword solves the puzzle with success
feedback; an input exactly equal to quit or skip skips it; any other input is
treated as a hint request: the orchestrator is called once with the puzzle,
the input and the user profile, the elapsed wall-clock time of that call is
taken, one analytics record (user id, model name, elapsed) is logged, and the
hint is spoken while the loop continues on the same puzzle. -/
def run_puzzle_step (user : UserRec) (puzzle : Puzzle) (env : StepEnv)
    (user_input : String) : StepResult :=
  if user_input = "" then
    { outcome := .reprompt,
      spoken := ["I" ++ squote ++ "m listening. Say the answer, or ask for a hint."],
      animations := [], hintCalls := [], analytics := [] }
  else if pyLower user_input ∈ puzzle.solution_keywords then
    { outcome := .solved,
      spoken := ["That" ++ squote ++ "s it! The answer is " ++ user_input ++ ". Excellent work!"],
      animations := ["celebrate"], hintCalls := [], analytics := [] }
  else if user_input = "quit" ∨ user_input = "skip" then
    { outcome := .skipped, spoken := ["Okay, skipping this one."],
      animations := [], hintCalls := [], analytics := [] }
  else
    let hint := env.generate_hint puzzle user_input user.profile
    let response_time := env.t1 - env.t0
    { outcome := .hintGiven,
      spoken := ["That" ++ squote ++ "s a good thought. Let me check for a hint.", hint],
      animations := ["thinking"],
      hintCalls := [(puzzle, user_input, user.profile)],
      analytics := [(user.id, env.llm_for_hints, response_time)] }

/-- C5: a non-empty input that is neither a solution keyword (after
lower-casing) nor quit nor skip takes the hint path: the hint generator is
invoked exactly once with the puzzle, the input and the user profile, exactly
one analytics record carrying the user id, the model name and the measured
elapsed time is emitted, that elapsed time is positive whenever the clock
advanced across the call, the returned hint is spoken, and the loop stays on
the same puzzle awaiting input. -/
theorem hint_path (user : UserRec) (puzzle : Puzzle) (env : StepEnv) (user_input : String)
    (hne : user_input ≠ "") (hkw : pyLower user_input ∉ puzzle.solution_keywords)
    (hq : user_input ≠ "quit") (hs : user_input ≠ "skip") (hclk : env.t0 < env.t1) :
    (run_puzzle_step user puzzle env user_input).hintCalls =
      [(puzzle, user_input, user.profile)] ∧
    (run_puzzle_step user puzzle env user_input).analytics =
      [(user.id, env.llm_for_hints, env.t1 - env.t0)] ∧
    0 < env.t1 - env.t0 ∧
    env.generate_hint puzzle user_input user.profile ∈
      (run_puzzle_step user puzzle env user_input).spoken ∧
    (run_puzzle_step user puzzle env user_input).outcome = .hintGiven := by
  have hqs : ¬(user_input = "quit" ∨ user_input = "skip") := by
    rintro (h | h)
    · exact hq h
    · exact hs h
  refine ⟨?_, ?_, ?_, ?_, ?_⟩ <;>
    simp [run_puzzle_step, if_neg hne, if_neg hkw, if_neg hqs]
  linarith

/-- Hint environment for the puzzle-loop witnesses. -/
def envHintW : StepEnv where
  generate_hint := fun _ input _ => "Think about " ++ input
  llm_for_hints := "gpt-4o-mini"
  t0 := 0
  t1 := 3 / 2

/-- Puzzle fixture for the puzzle-loop witnesses. -/
def puzzleW : Puzzle where
  question := "What animal says meow?"
  image_url := "img/p1.png"
  solution_keywords := ["cat"]

/-- User fixture for the puzzle-loop witnesses. -/
def userW : UserRec where
  id := 1
  username := "Alex"
  profile := { name := "Alex", age := 8, persona := "curious" }

/-- Witness for C5 at the input what on the cat puzzle. -/
theorem hint_path_witness :
    (run_puzzle_step userW puzzleW envHintW "what").hintCalls =
      [(puzzleW, "what", userW.profile)] ∧
    (run_puzzle_step userW puzzleW envHintW "what").outcome = .hintGiven := by
  have h := hint_path userW puzzleW envHintW "what" (by decide) (by decide)
    (by decide) (by decide) (by norm_num [envHintW])
  exact ⟨h.1, h.2.2.2.2⟩

/-- C9: keyword matching lower-cases the input (a non-empty input solves the
puzzle exactly when its lower-casing is among the solution keywords), while
the quit and skip comparison is exact: a capitalization of quit or skip that
is not exactly lowercase, and whose lower-casing is not a solution keyword,
is routed to the hint path instead of skipping the puzzle. -/
theorem control_words_case_sensitive :
    (∀ (user : UserRec) (puzzle : Puzzle) (env : StepEnv) (user_input : String),
      user_input ≠ "" →
        ((run_puzzle_step user puzzle env user_input).outcome = .solved ↔
          pyLower user_input ∈ puzzle.solution_keywords)) ∧
    (∀ (user : UserRec) (puzzle : Puzzle) (env : StepEnv) (user_input : String),
      (pyLower user_input = "quit" ∨ pyLower user_input = "skip") →
      user_input ≠ "quit" → user_input ≠ "skip" →
      pyLower user_input ∉ puzzle.solution_keywords →
        (run_puzzle_step user puzzle env user_input).outcome = .hintGiven) := by
  constructor
  · intro user puzzle env user_input hne
    simp only [run_puzzle_step, if_neg hne]
    by_cases hkw : pyLower user_input ∈ puzzle.solution_keywords
    · simp [hkw]
    · rw [if_neg hkw]
      by_cases hqs : user_input = "quit" ∨ user_input = "skip"
      · rw [if_pos hqs]
        simp [hkw]
      · rw [if_neg hqs]
        simp [hkw]
  · intro user puzzle env user_input hcap hq hs hkw
    have hne : user_input ≠ "" := by
      intro he
      rcases hcap with h | h <;> rw [he] at h <;> exact absurd h (by decide)
    have hqs : ¬(user_input = "quit" ∨ user_input = "skip") := by
      rintro (h | h)
      · exact hq h
      · exact hs h
    simp only [run_puzzle_step, if_neg hne, if_neg hkw, if_neg hqs]

/-- Witness for C9: the input Skip is routed to the hint path. -/
theorem control_words_case_sensitive_witness :
    pyLower "Skip" = "skip" ∧ ("Skip" : String) ≠ "skip" ∧
    (run_puzzle_step userW puzzleW envHintW "Skip").outcome = .hintGiven := by
  refine ⟨by decide, by decide, ?_⟩
  exact control_words_case_sensitive.2 userW puzzleW envHintW "Skip"
    (Or.inr (by decide)) (by decide) (by decide) (by decide)
